import Mathlib

/-!
Shallow embedding of `mirascope/weaviate/vectorstores.py` (class
`WeaviateVectorStore`) and verification of its specification.

The adapter is modelled operationally: the two `cached_property` fields
(`_client`, `_index`) become an explicit `StoreState`; the external
Weaviate client library becomes a `World` of fallible operations
(`Except PyErr`); every call into the underlying client is recorded in an
event trace, so that "performs exactly one insert", "does not create a
collection", "calls exactly this connect function" are statements about
the trace.
-/

namespace Mirascope

/-- Python-level exceptions that matter to the adapter: `IndexError` from
`documents[0]` / `objects[0]`, `AttributeError` from attribute access on
`None`, and arbitrary exceptions raised by the underlying client library. -/
inductive PyErr where
  | indexError
  | attributeError
  | other (msg : String)
deriving DecidableEq, Repr

/-- A Python keyword-argument dictionary, kept abstract as key/value pairs. -/
abbrev Kwargs := List (String × String)

/-- A chunk of text from `mirascope.rag.types.Document`: the fields the
adapter reads are `text` and `id`. -/
structure Document where
  text : String
  id : String
deriving DecidableEq, Repr

/-- Modelled from the spec: `WeaviateSettings` (from
`mirascope/weaviate/types.py`, not under `src/`) is a pass-through
configuration object holding the connection `mode` and the keyword
arguments its `kwargs()` method returns. -/
structure WeaviateSettings where
  mode : String
  kwargsVal : Kwargs
deriving DecidableEq, Repr

/-- Modelled from the spec: `WeaviateSettings.kwargs()` passes the stored
configuration through unchanged. -/
def WeaviateSettings.kwargs (s : WeaviateSettings) : Kwargs := s.kwargsVal

/-- Modelled from the spec: `WeaviateParams` (from
`mirascope/weaviate/types.py`, not under `src/`) is a pass-through
configuration object for collection creation: a `name` field plus the
remaining keyword arguments. -/
structure WeaviateParams where
  name : Option String
  extra : Kwargs
deriving DecidableEq, Repr

/-- Pydantic `model_copy(update=...)` with a `name` entry: a copy of the
params with the `name` field replaced. -/
def WeaviateParams.model_copy_name (p : WeaviateParams) (n : Option String) :
    WeaviateParams :=
  { p with name := n }

/-- A Weaviate client handle, recording which `weaviate.connect_to_*`
function produced it and the keyword arguments it was given. -/
inductive Client where
  | localConn (k : Kwargs)
  | embeddedConn (k : Kwargs)
  | cloudConn (k : Kwargs)
  | customConn (k : Kwargs)
deriving DecidableEq, Repr

/-- A collection handle, recording whether it came from
`client.collections.get(name)` or from `client.collections.create(**params)`. -/
inductive Collection where
  | fetched (name : Option String)
  | created (params : WeaviateParams)
deriving DecidableEq, Repr

/-- A batch-insert object, `wvc.data.DataObject(properties={...}, uuid=...)`:
the adapter always builds the properties dict as a single `text` entry. -/
structure DataObject where
  propText : String
  uuid : String
deriving DecidableEq, Repr

/-- One returned object of a `near_text` query response. -/
structure QueryObject where
  objUuid : String
  objProps : Kwargs
deriving DecidableEq, Repr

/-- Modelled from the spec: `WeaviateQueryResult` (from
`mirascope/weaviate/types.py`, not under `src/`); the spec describes it only
as the conversion of one returned query object, so it is modelled as a
wrapper around that object. -/
structure WeaviateQueryResult where
  fromObject : QueryObject
deriving DecidableEq, Repr

/-- Modelled from the spec: `WeaviateQueryResult.from_response` converts one
returned object into the result type. -/
def WeaviateQueryResult.from_response (o : QueryObject) : WeaviateQueryResult :=
  ⟨o⟩

/-- Every call the adapter makes into the underlying client library. -/
inductive Event where
  | connect (c : Client)
  | collectionsExists (name : Option String)
  | collectionsGet (name : Option String)
  | collectionsCreate (params : WeaviateParams)
  | insert (propText : String) (uuid : String)
  | insertMany (objs : List DataObject)
  | nearText (query : String)
  | close
deriving DecidableEq, Repr

/-- The external Weaviate library: each operation the adapter calls, with the
outcome the library would produce (a value, or an exception it raises). -/
structure World where
  connectOutcome : Client → Except PyErr Unit
  existsOutcome : Option String → Except PyErr Bool
  getOutcome : Option String → Except PyErr Unit
  createOutcome : WeaviateParams → Except PyErr Unit
  insertOutcome : String → String → Except PyErr Unit
  insertManyOutcome : List DataObject → Except PyErr Unit
  nearTextOutcome : String → Except PyErr (List QueryObject)
  closeOutcome : Client → Except PyErr Unit

/-- Configuration of one `WeaviateVectorStore` subclass: its
`client_settings`, `vectorstore_params`, `index_name`, and its chunker's
`chunk` method. -/
structure StoreConfig where
  client_settings : WeaviateSettings
  vectorstore_params : WeaviateParams
  index_name : Option String
  chunk : String → List Document

/-- The mutable per-instance state: the two `functools.cached_property`
caches. `clientCache = some v` means `_client` has been computed and `v`
(possibly `None`) was stored; `indexCache` likewise for `_index`. -/
structure StoreState where
  clientCache : Option (Option Client)
  indexCache : Option Collection
deriving DecidableEq, Repr

/-- A freshly constructed instance: both cached properties uncomputed. -/
def StoreState.init : StoreState := ⟨none, none⟩

/-- Python truthiness of `self.index_name` in `if self.index_name:`. -/
def pyTruthy : Option String → Bool
  | none => false
  | some s => s ≠ ""

namespace WeaviateVectorStore

/-- The branch dispatch in the body of `_client`: which
`weaviate.connect_to_*` call the configured mode selects, with
`client_settings.kwargs()` as its arguments; `none` when the mode matches no
branch (the Python function body falls through and returns `None`). -/
def connectDispatch (s : WeaviateSettings) : Option Client :=
  if s.mode = "local" then some (.localConn s.kwargs)
  else if s.mode = "embedded" then some (.embeddedConn s.kwargs)
  else if s.mode = "cloud" then some (.cloudConn s.kwargs)
  else if s.mode = "custom" then some (.customConn s.kwargs)
  else none

/-- One access to the `_client` cached property: return the cached value if
present; otherwise run the property body (dispatch on the mode, perform the
connect call) and cache the returned value. An exception raised by the
connect call propagates and nothing is cached; a `None` fall-through is a
normal return and is cached. -/
def clientAccess (cfg : StoreConfig) (w : World) (st : StoreState) :
    Except PyErr (Option Client) × StoreState × List Event :=
  match st.clientCache with
  | some v => (.ok v, st, [])
  | none =>
    match connectDispatch cfg.client_settings with
    | none => (.ok none, { st with clientCache := some none }, [])
    | some c =>
      match w.connectOutcome c with
      | .error e => (.error e, st, [.connect c])
      | .ok () => (.ok (some c), { st with clientCache := some (some c) },
          [.connect c])

/-- The local `vectorstore_params` variable of the `_index` body: the
configured params, with the `name` field overridden from `index_name` when
`index_name` is truthy. -/
def effectiveParams (cfg : StoreConfig) : WeaviateParams :=
  if pyTruthy cfg.index_name
  then cfg.vectorstore_params.model_copy_name cfg.index_name
  else cfg.vectorstore_params

/-- One access to the `_index` cached property: return the cached collection
if present; otherwise run the property body: access `_client` (raising
`AttributeError` further on if it is `None`), optionally override the params
name from `index_name`, ask whether the collection exists, and `get` or
`create` accordingly. Exceptions propagate and leave the cache empty. -/
def indexAccess (cfg : StoreConfig) (w : World) (st : StoreState) :
    Except PyErr Collection × StoreState × List Event :=
  match st.indexCache with
  | some coll => (.ok coll, st, [])
  | none =>
    match clientAccess cfg w st with
    | (.error e, st1, evs1) => (.error e, st1, evs1)
    | (.ok none, st1, evs1) => (.error .attributeError, st1, evs1)
    | (.ok (some _), st1, evs1) =>
      match w.existsOutcome cfg.index_name with
      | .error e => (.error e, st1, evs1 ++ [.collectionsExists cfg.index_name])
      | .ok true =>
        match w.getOutcome cfg.index_name with
        | .error e => (.error e, st1,
            evs1 ++ [.collectionsExists cfg.index_name,
              .collectionsGet cfg.index_name])
        | .ok () =>
          (.ok (Collection.fetched cfg.index_name),
            { st1 with indexCache := some (Collection.fetched cfg.index_name) },
            evs1 ++ [.collectionsExists cfg.index_name,
              .collectionsGet cfg.index_name])
      | .ok false =>
        match w.createOutcome (effectiveParams cfg) with
        | .error e => (.error e, st1,
            evs1 ++ [.collectionsExists cfg.index_name,
              .collectionsCreate (effectiveParams cfg)])
        | .ok () =>
          (.ok (Collection.created (effectiveParams cfg)),
            { st1 with indexCache := some (Collection.created (effectiveParams cfg)) },
            evs1 ++ [.collectionsExists cfg.index_name,
              .collectionsCreate (effectiveParams cfg)])

/-- The argument of `add`: unstructured text, or a pre-chunked document list. -/
inductive AddInput where
  | ofString (s : String)
  | ofDocs (ds : List Document)

/-- The first lines of `add`: a string is chunked with
`self.chunker.chunk`, a list of documents is used as-is. -/
def documentsOf (cfg : StoreConfig) : AddInput → List Document
  | .ofString s => cfg.chunk s
  | .ofDocs ds => ds

/-- `WeaviateVectorStore.add`. Fewer than two documents take the single
`insert` branch (evaluating `documents[0]` there, which raises `IndexError`
on an empty list after `_index` was already touched); two or more documents
build one `DataObject` per document in order and make a single
`insert_many` call. -/
def add (cfg : StoreConfig) (w : World) (st : StoreState) (text : AddInput) :
    Except PyErr Unit × StoreState × List Event :=
  let documents := documentsOf cfg text
  if documents.length < 2 then
    match indexAccess cfg w st with
    | (.error e, st1, evs1) => (.error e, st1, evs1)
    | (.ok _, st1, evs1) =>
      match documents[0]? with
      | none => (.error .indexError, st1, evs1)
      | some d =>
        match w.insertOutcome d.text d.id with
        | .error e => (.error e, st1, evs1 ++ [.insert d.text d.id])
        | .ok () => (.ok (), st1, evs1 ++ [.insert d.text d.id])
  else
    let data_objects := documents.map (fun d => DataObject.mk d.text d.id)
    match indexAccess cfg w st with
    | (.error e, st1, evs1) => (.error e, st1, evs1)
    | (.ok _, st1, evs1) =>
      match w.insertManyOutcome data_objects with
      | .error e => (.error e, st1, evs1 ++ [.insertMany data_objects])
      | .ok () => (.ok (), st1, evs1 ++ [.insertMany data_objects])

/-- `WeaviateVectorStore.retrieve`: one `near_text` query against the
collection, then `query_result.objects[0]` (raising `IndexError` when the
response is empty) converted through `WeaviateQueryResult.from_response`. -/
def retrieve (cfg : StoreConfig) (w : World) (st : StoreState) (text : String) :
    Except PyErr WeaviateQueryResult × StoreState × List Event :=
  match indexAccess cfg w st with
  | (.error e, st1, evs1) => (.error e, st1, evs1)
  | (.ok _, st1, evs1) =>
    match w.nearTextOutcome text with
    | .error e => (.error e, st1, evs1 ++ [.nearText text])
    | .ok objs =>
      match objs[0]? with
      | none => (.error .indexError, st1, evs1 ++ [.nearText text])
      | some o => (.ok (WeaviateQueryResult.from_response o), st1,
          evs1 ++ [.nearText text])

/-- `WeaviateVectorStore.close_connection`: `self._client.close()`;
`AttributeError` when `_client` is `None`. -/
def close_connection (cfg : StoreConfig) (w : World) (st : StoreState) :
    Except PyErr Unit × StoreState × List Event :=
  match clientAccess cfg w st with
  | (.error e, st1, evs1) => (.error e, st1, evs1)
  | (.ok none, st1, evs1) => (.error .attributeError, st1, evs1)
  | (.ok (some c), st1, evs1) =>
    match w.closeOutcome c with
    | .error e => (.error e, st1, evs1 ++ [.close])
    | .ok () => (.ok (), st1, evs1 ++ [.close])

end WeaviateVectorStore

/-- Recognizes the insert-type events (`insert` and `insert_many`). -/
def isInsertEv : Event → Bool
  | .insert _ _ => true
  | .insertMany _ => true
  | _ => false

/-- Recognizes a `connect_to_*` call. -/
def isConnectEv : Event → Bool
  | .connect _ => true
  | _ => false

/-- Recognizes a `collections.get` call. -/
def isGetEv : Event → Bool
  | .collectionsGet _ => true
  | _ => false

/-- Recognizes a `collections.create` call. -/
def isCreateEv : Event → Bool
  | .collectionsCreate _ => true
  | _ => false

/-- Recognizes a `near_text` query. -/
def isNearTextEv : Event → Bool
  | .nearText _ => true
  | _ => false

/-- The documents a trace inserts, as (properties text, uuid) pairs, in
order, across single inserts and batch inserts. -/
def insertedDocs : List Event → List (String × String)
  | [] => []
  | .insert t u :: rest => (t, u) :: insertedDocs rest
  | .insertMany objs :: rest =>
      objs.map (fun o => (o.propText, o.uuid)) ++ insertedDocs rest
  | _ :: rest => insertedDocs rest

section Samples

/-- A concrete settings value used by witnesses. -/
def sampleSettings : WeaviateSettings :=
  ⟨"local", [("host", "localhost")]⟩

/-- A concrete params value used by witnesses. -/
def sampleParams : WeaviateParams :=
  ⟨none, [("vectorizer", "none")]⟩

/-- A concrete store configuration used by witnesses. -/
def sampleConfig : StoreConfig :=
  ⟨sampleSettings, sampleParams, some "my-index",
    fun s => [⟨s, "chunk-0"⟩]⟩

/-- A world in which every underlying operation succeeds, no collection
exists yet, and every query returns one object. -/
def okWorld : World where
  connectOutcome := fun _ => .ok ()
  existsOutcome := fun _ => .ok false
  getOutcome := fun _ => .ok ()
  createOutcome := fun _ => .ok ()
  insertOutcome := fun _ _ => .ok ()
  insertManyOutcome := fun _ => .ok ()
  nearTextOutcome := fun _ => .ok [⟨"uuid-1", [("text", "hello")]⟩]
  closeOutcome := fun _ => .ok ()

/-- The client `sampleConfig` connects to in `okWorld`. -/
def c0 : Client := .localConn [("host", "localhost")]

/-- The params `sampleConfig` creates its collection from: `sampleParams`
with the name overridden to the configured index name. -/
def ps0 : WeaviateParams := ⟨some "my-index", [("vectorizer", "none")]⟩

/-- A sample document. -/
def docA : Document := ⟨"hello", "id-a"⟩

/-- A second sample document. -/
def docB : Document := ⟨"world", "id-b"⟩

/-- A world whose connect call raises. -/
def failConnectWorld : World :=
  { okWorld with connectOutcome := fun _ => .error (.other "ConnectionError") }

/-- A world whose collection-existence check raises. -/
def failExistsWorld : World :=
  { okWorld with existsOutcome := fun _ => .error (.other "ExistsError") }

/-- A world whose single insert raises. -/
def failInsertWorld : World :=
  { okWorld with insertOutcome := fun _ _ => .error (.other "InsertError") }

/-- A world whose nearest-text query returns no objects. -/
def emptyQueryWorld : World :=
  { okWorld with nearTextOutcome := fun _ => .ok [] }

/-- A world in which the collection already exists. -/
def existingCollWorld : World :=
  { okWorld with existsOutcome := fun _ => .ok true }

/-- A configuration whose mode matches no connect branch. -/
def badModeConfig : StoreConfig :=
  { sampleConfig with client_settings := ⟨"tcp", []⟩ }

end Samples

/-- The effect of one `weaviate.connect_to_*` call made from inside the
`_client` property body: the call itself is recorded, an exception leaves
the cache empty, a success caches the returned client. -/
def connectCallResult (w : World) (c : Client) (st : StoreState) :
    Except PyErr (Option Client) × StoreState × List Event :=
  match w.connectOutcome c with
  | .error e => (.error e, st, [.connect c])
  | .ok () => (.ok (some c), { st with clientCache := some (some c) },
      [.connect c])

open WeaviateVectorStore

/-- Every event a `_client` access emits is a connect call. -/
theorem clientAccess_trace_connects (cfg : StoreConfig) (w : World)
    (st : StoreState) :
    ∀ e ∈ (clientAccess cfg w st).2.2, isConnectEv e = true := by
  unfold clientAccess
  split
  · simp
  · split
    · simp
    · split <;> simp [isConnectEv]

/-- A connect event is neither a get, a create, an insert, nor a query. -/
theorem connectEv_shape (e : Event) (h : isConnectEv e = true) :
    isGetEv e = false ∧ isCreateEv e = false ∧ isInsertEv e = false ∧
      isNearTextEv e = false := by
  cases e <;> simp_all [isConnectEv, isGetEv, isCreateEv, isInsertEv,
    isNearTextEv]

/-- A `_client` access makes at most one call into the library. -/
theorem clientAccess_trace_len (cfg : StoreConfig) (w : World)
    (st : StoreState) :
    (clientAccess cfg w st).2.2.length ≤ 1 := by
  unfold clientAccess
  split
  · simp
  · split
    · simp
    · split <;> simp

/-- C5: for each of the four configured modes, the first access to
`_client` performs exactly the corresponding `weaviate.connect_to_*` call,
with `client_settings.kwargs()` as its arguments. -/
theorem clientAccess_mode_dispatch (cfg : StoreConfig) (w : World)
    (st : StoreState) (h0 : st.clientCache = none) :
    (cfg.client_settings.mode = "local" →
      clientAccess cfg w st =
        connectCallResult w (.localConn cfg.client_settings.kwargs) st)
    ∧ (cfg.client_settings.mode = "embedded" →
      clientAccess cfg w st =
        connectCallResult w (.embeddedConn cfg.client_settings.kwargs) st)
    ∧ (cfg.client_settings.mode = "cloud" →
      clientAccess cfg w st =
        connectCallResult w (.cloudConn cfg.client_settings.kwargs) st)
    ∧ (cfg.client_settings.mode = "custom" →
      clientAccess cfg w st =
        connectCallResult w (.customConn cfg.client_settings.kwargs) st) := by
  refine ⟨fun hm => ?_, fun hm => ?_, fun hm => ?_, fun hm => ?_⟩ <;>
    simp [clientAccess, connectDispatch, connectCallResult, h0, hm]

/-- C5 witness: a local-mode configuration connects via `connect_to_local`
with the configured kwargs, and caches the client. -/
theorem clientAccess_mode_dispatch_witness :
    clientAccess sampleConfig okWorld StoreState.init =
      connectCallResult okWorld
        (.localConn sampleConfig.client_settings.kwargs) StoreState.init :=
  (clientAccess_mode_dispatch sampleConfig okWorld StoreState.init rfl).1 rfl

/-- C10: with a mode matching no branch, `_client` falls through and
returns `None` without raising and without any connect call (the `None` is
cached), and the operations that then use the client, `close_connection`
and `_index`, fail with `AttributeError` on the `None` client. -/
theorem clientAccess_unknown_mode (cfg : StoreConfig) (w : World)
    (st : StoreState) (h0 : st.clientCache = none)
    (hm1 : cfg.client_settings.mode ≠ "local")
    (hm2 : cfg.client_settings.mode ≠ "embedded")
    (hm3 : cfg.client_settings.mode ≠ "cloud")
    (hm4 : cfg.client_settings.mode ≠ "custom") :
    clientAccess cfg w st =
      (.ok none, { st with clientCache := some none }, [])
    ∧ close_connection cfg w st =
      (.error .attributeError, { st with clientCache := some none }, [])
    ∧ (st.indexCache = none →
      indexAccess cfg w st =
        (.error .attributeError, { st with clientCache := some none }, [])) := by
  have hca : clientAccess cfg w st =
      (.ok none, { st with clientCache := some none }, []) := by
    simp only [clientAccess, connectDispatch, h0, hm1, hm2, hm3, hm4,
      if_false]
  refine ⟨hca, ?_, fun h1 => ?_⟩
  · unfold close_connection
    rw [hca]
  · unfold indexAccess
    simp only [h1, hca]

/-- C10 witness: mode `"tcp"` yields a `None` client with no connect call,
and `close_connection` / `_index` then fail with `AttributeError`. -/
theorem clientAccess_unknown_mode_witness :
    clientAccess badModeConfig okWorld StoreState.init =
      (.ok none, { StoreState.init with clientCache := some none }, [])
    ∧ close_connection badModeConfig okWorld StoreState.init =
      (.error .attributeError,
        { StoreState.init with clientCache := some none }, [])
    ∧ (StoreState.init.indexCache = none →
      indexAccess badModeConfig okWorld StoreState.init =
        (.error .attributeError,
          { StoreState.init with clientCache := some none }, [])) :=
  clientAccess_unknown_mode badModeConfig okWorld StoreState.init rfl
    (by decide) (by decide) (by decide) (by decide)

/-- C6: both cached properties are lazy caches. Once an access to `_client`
or `_index` returns normally, the returned handle is cached: a later access
returns the very same handle and the same state, making no further call
into the library; the first access itself made at most one connect call and
at most one get-or-create call. -/
theorem cached_properties_once (cfg : StoreConfig) (w : World)
    (st : StoreState) :
    (∀ v st1 evs1, clientAccess cfg w st = (.ok v, st1, evs1) →
      clientAccess cfg w st1 = (.ok v, st1, []) ∧
      evs1.countP isConnectEv ≤ 1)
    ∧ (∀ coll st1 evs1, indexAccess cfg w st = (.ok coll, st1, evs1) →
      indexAccess cfg w st1 = (.ok coll, st1, []) ∧
      evs1.countP isConnectEv ≤ 1 ∧
      evs1.countP (fun e => isGetEv e || isCreateEv e) ≤ 1) := by
  constructor
  · intro v st1 evs1 h
    unfold clientAccess at h
    split at h
    next v0 heq =>
      simp only [Prod.mk.injEq, Except.ok.injEq] at h
      obtain ⟨rfl, rfl, rfl⟩ := h
      exact ⟨by simp [clientAccess, heq], by simp⟩
    next heq =>
      split at h
      · simp only [Prod.mk.injEq, Except.ok.injEq] at h
        obtain ⟨rfl, rfl, rfl⟩ := h
        exact ⟨by simp [clientAccess], by simp⟩
      · split at h
        · simp at h
        · simp only [Prod.mk.injEq, Except.ok.injEq] at h
          obtain ⟨rfl, rfl, rfl⟩ := h
          refine ⟨by simp [clientAccess], ?_⟩
          simp [isConnectEv]
  · intro coll st1 evs1 h
    have hconn := clientAccess_trace_connects cfg w st
    have hlen := clientAccess_trace_len cfg w st
    unfold indexAccess at h
    split at h
    next coll0 heq =>
      simp only [Prod.mk.injEq, Except.ok.injEq] at h
      obtain ⟨rfl, rfl, rfl⟩ := h
      exact ⟨by simp [indexAccess, heq], by simp, by simp⟩
    next heq =>
      split at h
      next e st2 evs2 heq2 => simp at h
      next st2 evs2 heq2 => simp at h
      next c st2 evs2 heq2 =>
        rw [heq2] at hconn hlen
        simp only at hconn hlen
        have hcp1 : evs2.countP isConnectEv ≤ 1 :=
          le_trans (List.countP_le_length _) hlen
        have hcp2 : evs2.countP (fun e => isGetEv e || isCreateEv e) = 0 := by
          rw [List.countP_eq_zero]
          intro a ha
          have h1 := connectEv_shape a (hconn a ha)
          simp [h1.1, h1.2.1]
        split at h
        all_goals repeat split at h
        all_goals
          first
          | (exfalso; simp at h; done)
          | (simp only [Prod.mk.injEq, Except.ok.injEq] at h
             obtain ⟨rfl, rfl, rfl⟩ := h
             refine ⟨by simp [indexAccess], ?_, ?_⟩ <;>
               (simp [List.countP_append, List.countP_cons, isConnectEv,
                  isGetEv, isCreateEv, hcp1, hcp2]
                try exact fun a ha => ⟨(connectEv_shape a (hconn a ha)).1,
                  (connectEv_shape a (hconn a ha)).2.1⟩))

/-- C6 witness: after the first successful access to `_client` (resp.
`_index`) on a fresh instance, a second access returns the same cached
handle with no further library call. -/
theorem cached_properties_once_witness :
    (clientAccess sampleConfig okWorld
        ⟨some (some c0), none⟩ = (.ok (some c0), ⟨some (some c0), none⟩, [])
      ∧ ([Event.connect c0].countP isConnectEv ≤ 1))
    ∧ (indexAccess sampleConfig okWorld
        ⟨some (some c0), some (.created ps0)⟩ =
          (.ok (.created ps0), ⟨some (some c0), some (.created ps0)⟩, [])
      ∧ ([Event.connect c0, Event.collectionsExists (some "my-index"),
          Event.collectionsCreate ps0].countP isConnectEv ≤ 1)
      ∧ ([Event.connect c0, Event.collectionsExists (some "my-index"),
          Event.collectionsCreate ps0].countP
            (fun e => isGetEv e || isCreateEv e) ≤ 1)) :=
  ⟨(cached_properties_once sampleConfig okWorld StoreState.init).1
      (some c0) ⟨some (some c0), none⟩ [Event.connect c0] (by rfl),
    (cached_properties_once sampleConfig okWorld StoreState.init).2
      (.created ps0) ⟨some (some c0), some (.created ps0)⟩
      [Event.connect c0, Event.collectionsExists (some "my-index"),
        Event.collectionsCreate ps0] (by rfl)⟩

/-- `insertedDocs` distributes over trace concatenation. -/
theorem insertedDocs_append (l1 l2 : List Event) :
    insertedDocs (l1 ++ l2) = insertedDocs l1 ++ insertedDocs l2 := by
  induction l1 with
  | nil => simp [insertedDocs]
  | cons x xs ih => cases x <;> simp [insertedDocs, ih]

/-- A trace without insert events inserts nothing. -/
theorem insertedDocs_eq_nil (evs : List Event)
    (h : ∀ e ∈ evs, isInsertEv e = false) : insertedDocs evs = [] := by
  induction evs with
  | nil => rfl
  | cons x xs ih =>
    have hx := h x (by simp)
    have hxs := ih (fun e he => h e (by simp [he]))
    cases x <;> simp_all [isInsertEv, insertedDocs]

/-- An `_index` access emits no insert events and no query events. -/
theorem indexAccess_trace_no_inserts (cfg : StoreConfig) (w : World)
    (st : StoreState) :
    ∀ e ∈ (indexAccess cfg w st).2.2,
      isInsertEv e = false ∧ isNearTextEv e = false := by
  have hconn := clientAccess_trace_connects cfg w st
  unfold indexAccess
  split
  · simp
  · split
    next e st2 evs2 heq2 =>
      rw [heq2] at hconn; simp only at hconn
      exact fun a ha => ⟨(connectEv_shape a (hconn a ha)).2.2.1,
        (connectEv_shape a (hconn a ha)).2.2.2⟩
    next st2 evs2 heq2 =>
      rw [heq2] at hconn; simp only at hconn
      exact fun a ha => ⟨(connectEv_shape a (hconn a ha)).2.2.1,
        (connectEv_shape a (hconn a ha)).2.2.2⟩
    next c st2 evs2 heq2 =>
      rw [heq2] at hconn; simp only at hconn
      split
      all_goals try split
      all_goals
        intro a ha
        rw [List.mem_append] at ha
        rcases ha with ha | ha
        · exact ⟨(connectEv_shape a (hconn a ha)).2.2.1,
            (connectEv_shape a (hconn a ha)).2.2.2⟩
        · fin_cases ha <;> simp [isInsertEv, isNearTextEv]

/-- C2: computing `_index` with a working client create-or-fetches the
named collection. When a collection named `index_name` exists, it is
returned via `collections.get` and no create call is made; otherwise
exactly one collection is created from the effective params, and no get
call is made. The effective params are `vectorstore_params` with the
`name` field overridden to `index_name` whenever `index_name` is set. -/
theorem index_create_or_fetch (cfg : StoreConfig) (w : World)
    (st : StoreState) (h0 : st.indexCache = none) (c : Client)
    (st2 : StoreState) (evs2 : List Event)
    (hcl : clientAccess cfg w st = (.ok (some c), st2, evs2)) :
    (w.existsOutcome cfg.index_name = .ok true →
      w.getOutcome cfg.index_name = .ok () →
      (indexAccess cfg w st).1 = .ok (.fetched cfg.index_name) ∧
      ((indexAccess cfg w st).2.2).filter isCreateEv = [] ∧
      ((indexAccess cfg w st).2.2).filter isGetEv =
        [Event.collectionsGet cfg.index_name])
    ∧ (w.existsOutcome cfg.index_name = .ok false →
      w.createOutcome (effectiveParams cfg) = .ok () →
      (indexAccess cfg w st).1 = .ok (.created (effectiveParams cfg)) ∧
      ((indexAccess cfg w st).2.2).filter isGetEv = [] ∧
      ((indexAccess cfg w st).2.2).filter isCreateEv =
        [Event.collectionsCreate (effectiveParams cfg)])
    ∧ (pyTruthy cfg.index_name = true →
      effectiveParams cfg =
        cfg.vectorstore_params.model_copy_name cfg.index_name ∧
      (effectiveParams cfg).name = cfg.index_name)
    ∧ (pyTruthy cfg.index_name = false →
      effectiveParams cfg = cfg.vectorstore_params) := by
  have hconn := clientAccess_trace_connects cfg w st
  rw [hcl] at hconn; simp only at hconn
  have hfc : evs2.filter isCreateEv = [] :=
    List.filter_eq_nil_iff.2
      (fun a ha => by simp [(connectEv_shape a (hconn a ha)).2.1])
  have hfg : evs2.filter isGetEv = [] :=
    List.filter_eq_nil_iff.2
      (fun a ha => by simp [(connectEv_shape a (hconn a ha)).1])
  refine ⟨fun hex hget => ?_, fun hex hcr => ?_, fun ht => ?_, fun ht => ?_⟩
  · unfold indexAccess
    rw [h0, hcl]
    simp [hex, hget, List.filter_append, hfc, hfg, isGetEv, isCreateEv]
  · unfold indexAccess
    rw [h0, hcl]
    simp [hex, hcr, List.filter_append, hfc, hfg, isGetEv, isCreateEv]
  · unfold effectiveParams
    rw [ht]
    exact ⟨by simp, by simp [WeaviateParams.model_copy_name]⟩
  · unfold effectiveParams
    rw [ht]
    simp

/-- C2 witness: on the sample store (no collection exists yet), `_index`
creates one collection from the params with the name overridden to
`my-index`, and performs no get. -/
theorem index_create_or_fetch_witness :
    (indexAccess sampleConfig okWorld StoreState.init).1 =
      .ok (.created (effectiveParams sampleConfig))
    ∧ ((indexAccess sampleConfig okWorld StoreState.init).2.2).filter
        isGetEv = []
    ∧ ((indexAccess sampleConfig okWorld StoreState.init).2.2).filter
        isCreateEv = [Event.collectionsCreate (effectiveParams sampleConfig)] :=
  (index_create_or_fetch sampleConfig okWorld StoreState.init rfl c0
    ⟨some (some c0), none⟩ [Event.connect c0] (by rfl)).2.1 rfl rfl

/-- C1: whenever the document list reaching the insert step of `add` is
nonempty (its head exists) and the collection is available, `add` performs
exactly one insert-type call: a single `insert` of the head's text and id
when there are fewer than two documents, and a single `insert_many` of one
`DataObject` per document, in order, when there are two or more. -/
theorem add_single_or_batch (cfg : StoreConfig) (w : World) (st : StoreState)
    (input : AddInput) (d : Document)
    (hd : (documentsOf cfg input)[0]? = some d)
    (coll : Collection) (st2 : StoreState) (evs2 : List Event)
    (hidx : indexAccess cfg w st = (.ok coll, st2, evs2)) :
    ((add cfg w st input).2.2).filter isInsertEv =
      if (documentsOf cfg input).length < 2
      then [Event.insert d.text d.id]
      else [Event.insertMany ((documentsOf cfg input).map
        (fun x => DataObject.mk x.text x.id))] := by
  have hni := indexAccess_trace_no_inserts cfg w st
  rw [hidx] at hni; simp only at hni
  have hfi : evs2.filter isInsertEv = [] :=
    List.filter_eq_nil_iff.2 (fun a ha => by simp [(hni a ha).1])
  simp only [add]
  split
  next hlt =>
    cases hio : w.insertOutcome d.text d.id <;>
      simp [hidx, hd, hio, List.filter_append, hfi, isInsertEv]
  next hge =>
    cases hio : w.insertManyOutcome ((documentsOf cfg input).map
        (fun x => DataObject.mk x.text x.id)) <;>
      simp [hidx, hio, List.filter_append, hfi, isInsertEv]

/-- C1 witness: adding one document performs exactly one single insert of
its text and id; the two-document case is covered by the same theorem. -/
theorem add_single_or_batch_witness :
    ((add sampleConfig okWorld StoreState.init
        (.ofDocs [docA])).2.2).filter isInsertEv =
      (if (documentsOf sampleConfig (.ofDocs [docA])).length < 2
      then [Event.insert docA.text docA.id]
      else [Event.insertMany ((documentsOf sampleConfig
        (.ofDocs [docA])).map (fun x => DataObject.mk x.text x.id))]) :=
  add_single_or_batch sampleConfig okWorld StoreState.init
    (.ofDocs [docA]) docA rfl (.created ps0)
    ⟨some (some c0), some (.created ps0)⟩
    [Event.connect c0, Event.collectionsExists (some "my-index"),
      Event.collectionsCreate ps0] (by rfl)

/-- C3: with the collection available, the documents `add` inserts are
exactly the chunker's chunks of the input when the input is a string, and
exactly the given list, unchanged and in order, when the input is already
a list of documents. -/
theorem add_chunk_or_passthrough (cfg : StoreConfig) (w : World)
    (st : StoreState) (coll : Collection) (st2 : StoreState)
    (evs2 : List Event)
    (hidx : indexAccess cfg w st = (.ok coll, st2, evs2)) :
    (∀ s, insertedDocs (add cfg w st (.ofString s)).2.2 =
      (cfg.chunk s).map (fun d => (d.text, d.id)))
    ∧ (∀ ds, insertedDocs (add cfg w st (.ofDocs ds)).2.2 =
      ds.map (fun d => (d.text, d.id))) := by
  have hni := indexAccess_trace_no_inserts cfg w st
  rw [hidx] at hni; simp only at hni
  have hie : insertedDocs evs2 = [] :=
    insertedDocs_eq_nil evs2 (fun a ha => (hni a ha).1)
  have key : ∀ input, insertedDocs (add cfg w st input).2.2 =
      (documentsOf cfg input).map (fun d => (d.text, d.id)) := by
    intro input
    simp only [add]
    rcases hds : documentsOf cfg input with _ | ⟨d1, _ | ⟨d2, tail⟩⟩
    · simp [hidx, hie]
    · cases hio : w.insertOutcome d1.text d1.id <;>
        simp [hidx, hio, insertedDocs_append, hie, insertedDocs]
    · cases hio : w.insertManyOutcome ((d1 :: d2 :: tail).map
          (fun x => DataObject.mk x.text x.id))
      all_goals
        (simp only [hidx, hio, List.length_cons]
         rw [if_neg (by omega)]
         simp [insertedDocs_append, hie, insertedDocs, List.map_map,
           Function.comp])
  exact ⟨fun s => key (.ofString s), fun ds => key (.ofDocs ds)⟩

/-- C3 witness: a string input inserts exactly the chunker's chunks; a
document-list input inserts exactly that list. -/
theorem add_chunk_or_passthrough_witness :
    insertedDocs (add sampleConfig okWorld StoreState.init
        (.ofString "some text")).2.2 =
      (sampleConfig.chunk "some text").map (fun d => (d.text, d.id))
    ∧ insertedDocs (add sampleConfig okWorld StoreState.init
        (.ofDocs [docA, docB])).2.2 =
      [docA, docB].map (fun d => (d.text, d.id)) :=
  ⟨(add_chunk_or_passthrough sampleConfig okWorld StoreState.init
      (.created ps0) ⟨some (some c0), some (.created ps0)⟩
      [Event.connect c0, Event.collectionsExists (some "my-index"),
        Event.collectionsCreate ps0] (by rfl)).1 "some text",
    (add_chunk_or_passthrough sampleConfig okWorld StoreState.init
      (.created ps0) ⟨some (some c0), some (.created ps0)⟩
      [Event.connect c0, Event.collectionsExists (some "my-index"),
        Event.collectionsCreate ps0] (by rfl)).2 [docA, docB]⟩

/-- C4: with the collection available, `retrieve` issues exactly one
`near_text` query carrying the given text, and returns the first object of
the query response converted through `WeaviateQueryResult.from_response`. -/
theorem retrieve_near_text_top (cfg : StoreConfig) (w : World)
    (st : StoreState) (tq : String) (coll : Collection) (st2 : StoreState)
    (evs2 : List Event)
    (hidx : indexAccess cfg w st = (.ok coll, st2, evs2))
    (objs : List QueryObject) (hq : w.nearTextOutcome tq = .ok objs)
    (o : QueryObject) (ho : objs[0]? = some o) :
    (retrieve cfg w st tq).1 = .ok (WeaviateQueryResult.from_response o)
    ∧ ((retrieve cfg w st tq).2.2).filter isNearTextEv =
      [Event.nearText tq] := by
  have hni := indexAccess_trace_no_inserts cfg w st
  rw [hidx] at hni; simp only at hni
  have hfn : evs2.filter isNearTextEv = [] :=
    List.filter_eq_nil_iff.2 (fun a ha => by simp [(hni a ha).2])
  unfold retrieve
  rw [hidx]
  simp [hq, ho, List.filter_append, hfn, isNearTextEv]

/-- C4 witness: retrieving on the sample store returns the single response
object converted through `from_response`, after exactly one `near_text`
query with the given text. -/
theorem retrieve_near_text_top_witness :
    (retrieve sampleConfig okWorld StoreState.init "my question").1 =
      .ok (WeaviateQueryResult.from_response
        ⟨"uuid-1", [("text", "hello")]⟩)
    ∧ ((retrieve sampleConfig okWorld StoreState.init
        "my question").2.2).filter isNearTextEv =
      [Event.nearText "my question"] :=
  retrieve_near_text_top sampleConfig okWorld StoreState.init "my question"
    (.created ps0) ⟨some (some c0), some (.created ps0)⟩
    [Event.connect c0, Event.collectionsExists (some "my-index"),
      Event.collectionsCreate ps0] (by rfl)
    [⟨"uuid-1", [("text", "hello")]⟩] rfl
    ⟨"uuid-1", [("text", "hello")]⟩ rfl

/-- C7: the adapter has no error handling of its own. Whatever exception an
underlying client operation raises — connect, collection exists, get,
create, single insert, batch insert, or the nearest-text query — is the
exact outcome of the `add` / `retrieve` / property access that triggered
it, never caught, wrapped, or translated. -/
theorem underlying_errors_propagate (cfg : StoreConfig) (w : World)
    (st : StoreState) (e : PyErr) :
    (∀ c, st.clientCache = none →
      connectDispatch cfg.client_settings = some c →
      w.connectOutcome c = .error e →
      (clientAccess cfg w st).1 = .error e)
    ∧ (∀ c st2 evs2, st.indexCache = none →
      clientAccess cfg w st = (.ok (some c), st2, evs2) →
      w.existsOutcome cfg.index_name = .error e →
      (indexAccess cfg w st).1 = .error e)
    ∧ (∀ c st2 evs2, st.indexCache = none →
      clientAccess cfg w st = (.ok (some c), st2, evs2) →
      w.existsOutcome cfg.index_name = .ok true →
      w.getOutcome cfg.index_name = .error e →
      (indexAccess cfg w st).1 = .error e)
    ∧ (∀ c st2 evs2, st.indexCache = none →
      clientAccess cfg w st = (.ok (some c), st2, evs2) →
      w.existsOutcome cfg.index_name = .ok false →
      w.createOutcome (effectiveParams cfg) = .error e →
      (indexAccess cfg w st).1 = .error e)
    ∧ (∀ st2 evs2 input tq, indexAccess cfg w st = (.error e, st2, evs2) →
      (add cfg w st input).1 = .error e ∧
      (retrieve cfg w st tq).1 = .error e)
    ∧ (∀ coll st2 evs2 d, indexAccess cfg w st = (.ok coll, st2, evs2) →
      w.insertOutcome d.text d.id = .error e →
      (add cfg w st (.ofDocs [d])).1 = .error e)
    ∧ (∀ coll st2 evs2 ds, indexAccess cfg w st = (.ok coll, st2, evs2) →
      ¬(ds : List Document).length < 2 →
      w.insertManyOutcome (ds.map (fun x => DataObject.mk x.text x.id)) =
        .error e →
      (add cfg w st (.ofDocs ds)).1 = .error e)
    ∧ (∀ coll st2 evs2 tq, indexAccess cfg w st = (.ok coll, st2, evs2) →
      w.nearTextOutcome tq = .error e →
      (retrieve cfg w st tq).1 = .error e) := by
  refine ⟨?_, ?_, ?_, ?_, ?_, ?_, ?_, ?_⟩
  · intro c h0 hdsp hce
    simp [clientAccess, h0, hdsp, hce]
  · intro c st2 evs2 h0 hcl hex
    unfold indexAccess
    rw [h0, hcl]
    simp [hex]
  · intro c st2 evs2 h0 hcl hex hget
    unfold indexAccess
    rw [h0, hcl]
    simp [hex, hget]
  · intro c st2 evs2 h0 hcl hex hcr
    unfold indexAccess
    rw [h0, hcl]
    simp [hex, hcr]
  · intro st2 evs2 input tq hidx
    constructor
    · simp only [add]
      split <;> simp [hidx]
    · unfold retrieve
      rw [hidx]
  · intro coll st2 evs2 d hidx hins
    simp [add, documentsOf, hidx, hins]
  · intro coll st2 evs2 ds hidx hlen hins
    simp only [add, documentsOf]
    rw [if_neg hlen]
    simp [hidx, hins]
  · intro coll st2 evs2 tq hidx hq
    unfold retrieve
    rw [hidx]
    simp [hq]

/-- C7 witness: an exception raised by the underlying single insert is the
exact error returned by `add`, unchanged. -/
theorem underlying_errors_propagate_witness :
    (add sampleConfig failInsertWorld StoreState.init
        (.ofDocs [docA])).1 = .error (.other "InsertError") :=
  (underlying_errors_propagate sampleConfig failInsertWorld StoreState.init
    (.other "InsertError")).2.2.2.2.2.1 (.created ps0)
    ⟨some (some c0), some (.created ps0)⟩
    [Event.connect c0, Event.collectionsExists (some "my-index"),
      Event.collectionsCreate ps0] docA (by rfl) rfl

/-- C8: an empty document list (from an empty list argument or a chunker
returning no chunks) takes the single-insert branch, where `documents[0]`
raises `IndexError` after `_index` was touched but before any insert call
is made; with at least one document present the single-insert branch is
safe and `add` succeeds. -/
theorem add_empty_documents_indexerror (cfg : StoreConfig) (w : World)
    (st : StoreState) (coll : Collection) (st2 : StoreState)
    (evs2 : List Event)
    (hidx : indexAccess cfg w st = (.ok coll, st2, evs2)) :
    (add cfg w st (.ofDocs []) = (.error .indexError, st2, evs2)
      ∧ evs2.filter isInsertEv = [])
    ∧ (∀ s, cfg.chunk s = [] →
      (add cfg w st (.ofString s)).1 = .error .indexError)
    ∧ (∀ d, w.insertOutcome d.text d.id = .ok () →
      (add cfg w st (.ofDocs [d])).1 = .ok ()) := by
  have hni := indexAccess_trace_no_inserts cfg w st
  rw [hidx] at hni; simp only at hni
  refine ⟨⟨?_, ?_⟩, fun s hs => ?_, fun d hins => ?_⟩
  · simp [add, documentsOf, hidx]
  · exact List.filter_eq_nil_iff.2 (fun a ha => by simp [(hni a ha).1])
  · simp [add, documentsOf, hs, hidx]
  · simp [add, documentsOf, hidx, hins]

/-- C8 witness: adding an empty document list on the sample store raises
`IndexError` with no insert call in the trace; adding one document
succeeds. -/
theorem add_empty_documents_indexerror_witness :
    (add sampleConfig okWorld StoreState.init (.ofDocs []) =
      (.error .indexError, ⟨some (some c0), some (.created ps0)⟩,
        [Event.connect c0, Event.collectionsExists (some "my-index"),
          Event.collectionsCreate ps0])
      ∧ [Event.connect c0, Event.collectionsExists (some "my-index"),
          Event.collectionsCreate ps0].filter isInsertEv = [])
    ∧ (add sampleConfig okWorld StoreState.init
        (.ofDocs [docA])).1 = .ok () :=
  ⟨(add_empty_documents_indexerror sampleConfig okWorld StoreState.init
      (.created ps0) ⟨some (some c0), some (.created ps0)⟩
      [Event.connect c0, Event.collectionsExists (some "my-index"),
        Event.collectionsCreate ps0] (by rfl)).1,
    (add_empty_documents_indexerror sampleConfig okWorld StoreState.init
      (.created ps0) ⟨some (some c0), some (.created ps0)⟩
      [Event.connect c0, Event.collectionsExists (some "my-index"),
        Event.collectionsCreate ps0] (by rfl)).2.2 docA rfl⟩

/-- C9: when the nearest-text query returns no objects, `retrieve` raises
`IndexError` at `query_result.objects[0]`; when the response is nonempty,
`retrieve` returns its first object converted through `from_response`. -/
theorem retrieve_empty_objects_indexerror (cfg : StoreConfig) (w : World)
    (st : StoreState) (tq : String) (coll : Collection) (st2 : StoreState)
    (evs2 : List Event)
    (hidx : indexAccess cfg w st = (.ok coll, st2, evs2)) :
    (w.nearTextOutcome tq = .ok [] →
      (retrieve cfg w st tq).1 = .error .indexError)
    ∧ (∀ objs o, w.nearTextOutcome tq = .ok objs → objs[0]? = some o →
      (retrieve cfg w st tq).1 =
        .ok (WeaviateQueryResult.from_response o)) := by
  constructor
  · intro hq
    unfold retrieve
    rw [hidx]
    simp [hq]
  · intro objs o hq ho
    unfold retrieve
    rw [hidx]
    simp [hq, ho]

/-- C9 witness: on a world whose query returns no objects, `retrieve`
raises `IndexError`. -/
theorem retrieve_empty_objects_indexerror_witness :
    (retrieve sampleConfig emptyQueryWorld StoreState.init "q").1 =
      .error .indexError :=
  (retrieve_empty_objects_indexerror sampleConfig emptyQueryWorld
    StoreState.init "q" (.created ps0)
    ⟨some (some c0), some (.created ps0)⟩
    [Event.connect c0, Event.collectionsExists (some "my-index"),
      Event.collectionsCreate ps0] (by rfl)).1 rfl

end Mirascope
